import Mathlib

/-!
Shallow embedding of the API-key lifecycle engine of `memory-bank-mcp`
(`src/tools/api-key-manager/{keygen.py,backends.py,app.py}` and the
near-identical `src/tools/api-keys-tui/app.py`).

Python values are embedded as follows: `str` as `String` (or `List Char`
where character-level reasoning is needed), timestamps as `Int` (abstract
time units; `None` as `Option`), byte strings as `List Nat` with entries
below 256, the relational store as explicit lists of row structures, and
the nondeterministic inputs (`secrets.token_bytes`, `uuid.uuid4()`, the
`RETURNING id` of an `INSERT`) as explicit function arguments or a
counter threaded through the state.  The Python `prefix` field is named
`pfx` here.
-/

namespace MBMCP

/-- Derived lifecycle state of a key (`active | revoked | expired`),
computed on read in `DbBackend.list_keys`, never stored. -/
inductive Status where
  | active
  | revoked
  | expired
  deriving DecidableEq, Repr

/-- The status derivation inlined in `DbBackend.list_keys`
(backends.py lines 203-209):
`status = "active"; if revoked: status = "revoked"
elif expires and expires < datetime.now(...): status = "expired"`.
A Python `datetime` is always truthy, `None` is falsy. -/
def resolveStatus (revokedAt : Option Int) (expiresAt : Option Int) (now : Int) : Status :=
  match revokedAt with
  | some _ => .revoked
  | none =>
    match expiresAt with
    | some e => if e < now then .expired else .active
    | none => .active

/-- A row of the `api_keys` table (the columns selected by
`DbBackend.list_keys` in backends.py lines 193-195). -/
structure KeyRow where
  id : String
  keyPfx : String
  keyHash : List Nat
  label : Option String
  scopes : List String
  rateLimit : Nat
  lastUsedAt : Option Int
  expiresAt : Option Int
  createdAt : Int
  revokedAt : Option Int
  userId : String
  projectId : String
  deriving DecidableEq, Repr

/-- The normalized camelCase record built per row by `DbBackend.list_keys`
(backends.py lines 210-225).  `status` is derived, not a stored column. -/
structure KeyView where
  id : String
  keyPfx : String
  label : Option String
  scopes : List String
  rateLimit : Nat
  lastUsedAt : Option Int
  expiresAt : Option Int
  createdAt : Int
  revokedAt : Option Int
  status : Status
  userId : String
  projectId : String
  deriving DecidableEq, Repr

/-- Normalization of one fetched row (backends.py lines 201-225). -/
def toView (now : Int) (r : KeyRow) : KeyView :=
  { id := r.id
    keyPfx := r.keyPfx
    label := r.label
    scopes := r.scopes
    rateLimit := r.rateLimit
    lastUsedAt := r.lastUsedAt
    expiresAt := r.expiresAt
    createdAt := r.createdAt
    revokedAt := r.revokedAt
    status := resolveStatus r.revokedAt r.expiresAt now
    userId := r.userId
    projectId := r.projectId }

/-- Insert a row into a list kept sorted by `createdAt` descending. -/
def insertByCreated (r : KeyRow) : List KeyRow → List KeyRow
  | [] => [r]
  | x :: xs =>
    if x.createdAt ≤ r.createdAt then r :: x :: xs
    else x :: insertByCreated r xs

/-- `ORDER BY created_at DESC` of the `SELECT` in `DbBackend.list_keys`. -/
def sortByCreatedDesc : List KeyRow → List KeyRow
  | [] => []
  | x :: xs => insertByCreated x (sortByCreatedDesc xs)

/-- `DbBackend.list_keys` (backends.py lines 188-227): the `api_keys`
rows, restricted to `revoked_at IS NULL` unless `include_revoked`,
ordered by `created_at DESC`, each normalized by `toView`. -/
def list_keys (db : List KeyRow) (include_revoked : Bool) (now : Int) : List KeyView :=
  let rows := if include_revoked then db else db.filter (fun r => r.revokedAt = none)
  (sortByCreatedDesc rows).map (toView now)

/-- `DbBackend.revoke_key` (backends.py lines 341-350):
`UPDATE api_keys SET revoked_at = now() WHERE id = %s AND revoked_at IS NULL`,
returning the updated table and `rowcount > 0`. -/
def dbRevoke (db : List KeyRow) (key_id : String) (now : Int) : List KeyRow × Bool :=
  let touched := fun (r : KeyRow) => r.id = key_id ∧ r.revokedAt = none
  let db' := db.map (fun r => if touched r then { r with revokedAt := some now } else r)
  (db', 0 < (db.filter (fun r => decide (touched r))).length)

/-- `HttpBackend.revoke_key` (backends.py lines 133-140) as a function of
the HTTP status code the server answers the `DELETE` with:
`r.raise_for_status()` raises `httpx.HTTPStatusError` for a 4xx or 5xx
status, and otherwise the method returns `True` unconditionally. -/
def httpRevoke (serverStatus : Nat) : Except String Bool :=
  if 400 ≤ serverStatus then .error "HTTPStatusError" else .ok true

/-! ### SHA-256 (the `hashlib.sha256(...).digest()` used by keygen.py) -/

/-- Truncation to a 32-bit word. -/
def w32 (n : Nat) : Nat := n % 4294967296

/-- 32-bit right rotation. -/
def rotr (x n : Nat) : Nat := w32 ((x >>> n) ||| (x <<< (32 - n)))

/-- The eight initial SHA-256 hash words. -/
structure Hs where
  a : Nat
  b : Nat
  c : Nat
  d : Nat
  e : Nat
  f : Nat
  g : Nat
  h : Nat
  deriving Repr

/-- The eight initial hash values of FIPS 180-4 section 5.3.3, written
in decimal. -/
def sha256Init : Hs :=
  ⟨1779033703, 3144134277, 1013904242, 2773480762,
   1359893119, 2600822924, 528734635, 1541459225⟩

/-- The 64 round constants of FIPS 180-4 section 4.2.2, in decimal. -/
def sha256K : List Nat :=
  [1116352408, 1899447441, 3049323471, 3921009573, 961987163,
   1508970993, 2453635748, 2870763221, 3624381080, 310598401,
   607225278, 1426881987, 1925078388, 2162078206, 2614888103,
   3248222580, 3835390401, 4022224774, 264347078, 604807628,
   770255983, 1249150122, 1555081692, 1996064986, 2554220882,
   2821834349, 2952996808, 3210313671, 3336571891, 3584528711,
   113926993, 338241895, 666307205, 773529912, 1294757372,
   1396182291, 1695183700, 1986661051, 2177026350, 2456956037,
   2730485921, 2820302411, 3259730800, 3345764771, 3516065817,
   3600352804, 4094571909, 275423344, 430227734, 506948616,
   659060556, 883997877, 958139571, 1322822218, 1537002063,
   1747873779, 1955562222, 2024104815, 2227730452, 2361852424,
   2428436474, 2756734187, 3204031479, 3329325298]

/-- Number of zero bytes in the SHA-256 padding for a message of `l` bytes. -/
def padZeros (l : Nat) : Nat := (119 - l % 64) % 64

/-- Big-endian 8-byte encoding of the bit length. -/
def lenBytes (l : Nat) : List Nat :=
  let bits := 8 * l
  [bits >>> 56 % 256, bits >>> 48 % 256, bits >>> 40 % 256, bits >>> 32 % 256,
   bits >>> 24 % 256, bits >>> 16 % 256, bits >>> 8 % 256, bits % 256]

/-- SHA-256 message padding: `0x80`, zeros to 56 mod 64, 8 length bytes. -/
def padMsg (msg : List Nat) : List Nat :=
  msg ++ [0x80] ++ List.replicate (padZeros msg.length) 0 ++ lenBytes msg.length

/-- Split a byte list into 64-byte chunks, with structural recursion on
a fuel bound so the kernel can evaluate it (`fuel ≥ l.length` always
holds at the call sites). -/
def chunksAux : Nat → List Nat → List (List Nat)
  | 0, _ => []
  | _ + 1, [] => []
  | fuel + 1, a :: as => (a :: as).take 64 :: chunksAux fuel ((a :: as).drop 64)

/-- Split a byte list into 64-byte chunks. -/
def chunks64 (l : List Nat) : List (List Nat) := chunksAux l.length l

/-- Big-endian 32-bit words of a 64-byte chunk. -/
def chunkWords : List Nat → List Nat
  | b0 :: b1 :: b2 :: b3 :: rest => (b0 <<< 24 ||| b1 <<< 16 ||| b2 <<< 8 ||| b3) :: chunkWords rest
  | _ => []

/-- Extend the 16 message words to the 64-entry message schedule. -/
def extendSchedule (w : List Nat) : List Nat :=
  (List.range 48).foldl
    (fun acc _ =>
      let n := acc.length
      let w15 := acc.getD (n - 15) 0
      let w2 := acc.getD (n - 2) 0
      let s0 := rotr w15 7 ^^^ rotr w15 18 ^^^ (w15 >>> 3)
      let s1 := rotr w2 17 ^^^ rotr w2 19 ^^^ (w2 >>> 10)
      acc ++ [w32 (acc.getD (n - 16) 0 + s0 + acc.getD (n - 7) 0 + s1)])
    w

/-- One SHA-256 round. -/
def sha256Round (st : Hs) (kw : Nat × Nat) : Hs :=
  let s1 := rotr st.e 6 ^^^ rotr st.e 11 ^^^ rotr st.e 25
  let ch := (st.e &&& st.f) ^^^ ((st.e ^^^ 4294967295) &&& st.g)
  let t1 := w32 (st.h + s1 + ch + kw.1 + kw.2)
  let s0 := rotr st.a 2 ^^^ rotr st.a 13 ^^^ rotr st.a 22
  let mj := (st.a &&& st.b) ^^^ (st.a &&& st.c) ^^^ (st.b &&& st.c)
  let t2 := w32 (s0 + mj)
  ⟨w32 (t1 + t2), st.a, st.b, st.c, w32 (st.d + t1), st.e, st.f, st.g⟩

/-- Compress one 64-byte chunk into the running hash state. -/
def sha256Chunk (st : Hs) (chunk : List Nat) : Hs :=
  let ws := extendSchedule (chunkWords chunk)
  let r := (sha256K.zip ws).foldl sha256Round st
  ⟨w32 (st.a + r.a), w32 (st.b + r.b), w32 (st.c + r.c), w32 (st.d + r.d),
   w32 (st.e + r.e), w32 (st.f + r.f), w32 (st.g + r.g), w32 (st.h + r.h)⟩

/-- Big-endian bytes of one hash word. -/
def wordBytes (w : Nat) : List Nat :=
  [w >>> 24 % 256, w >>> 16 % 256, w >>> 8 % 256, w % 256]

/-- Serialize the final state to the 32-byte digest. -/
def digestBytes (st : Hs) : List Nat :=
  wordBytes st.a ++ wordBytes st.b ++ wordBytes st.c ++ wordBytes st.d ++
  wordBytes st.e ++ wordBytes st.f ++ wordBytes st.g ++ wordBytes st.h

/-- SHA-256 digest of a byte string. -/
def sha256 (msg : List Nat) : List Nat :=
  digestBytes ((chunks64 (padMsg msg)).foldl sha256Chunk sha256Init)

/-! ### Key material generation (keygen.py) -/

/-- UTF-8 bytes of one character (Python `str.encode()`). -/
def utf8Char (c : Char) : List Nat :=
  let n := c.toNat
  if n < 128 then [n]
  else if n < 2048 then [192 + n / 64, 128 + n % 64]
  else if n < 65536 then [224 + n / 4096, 128 + n / 64 % 64, 128 + n % 64]
  else [240 + n / 262144, 128 + n / 4096 % 64, 128 + n / 64 % 64, 128 + n % 64]

/-- UTF-8 encoding of a string's characters. -/
def utf8Encode : List Char → List Nat
  | [] => []
  | c :: cs => utf8Char c ++ utf8Encode cs

/-- `BASE62 = string.digits + string.ascii_uppercase + string.ascii_lowercase`
(keygen.py line 16). -/
def BASE62 : List Char :=
  "0123456789ABCDEFGHIJKLMNOPQRSTUVWXYZabcdefghijklmnopqrstuvwxyz".data

/-- The credential triple returned by `generate_api_key`. -/
structure KeyMaterial where
  plaintext : List Char
  pfx : List Char
  hash : List Nat
  deriving DecidableEq, Repr

/-- `generate_api_key` (keygen.py lines 19-29), with the
`secrets.token_bytes(32)` draw passed in explicitly:
`random_str = "".join(BASE62[b % 62] for b in random_bytes)`;
`plaintext = f"mbmcp_{environment}_{random_str}"`;
`prefix = plaintext[:16]`;
`key_hash = hashlib.sha256(plaintext.encode()).digest()`. -/
def generate_api_key (environment : List Char) (random_bytes : List Nat) : KeyMaterial :=
  let random_str := random_bytes.map (fun b => BASE62.getD (b % 62) '0')
  let plaintext := "mbmcp_".data ++ environment ++ "_".data ++ random_str
  { plaintext := plaintext
    pfx := plaintext.take 16
    hash := sha256 (utf8Encode plaintext) }

/-! ### Identity resolution (backends.py lines 231-288) -/

/-- ASCII reading of Python's regex class `\w` (`[a-zA-Z0-9_]`). -/
def isWordChar (c : Char) : Bool := c.isAlpha || c.isDigit || c = '_'

/-- ASCII reading of Python's regex class `\s` (`[ \t\n\r\f\v]`). -/
def isSpaceChar (c : Char) : Bool :=
  c = ' ' || c = '\t' || c = '\n' || c = '\r' || c = '\x0b' || c = '\x0c'

/-- Python `str.strip()`: drop leading and trailing whitespace. -/
def pyStrip (s : List Char) : List Char :=
  ((s.dropWhile isSpaceChar).reverse.dropWhile isSpaceChar).reverse

/-- Python `str.strip("-")`: drop leading and trailing hyphens. -/
def stripHyphens (s : List Char) : List Char :=
  ((s.dropWhile (· = '-')).reverse.dropWhile (· = '-')).reverse

/-- `re.sub(r"[^\w\s-]", "", s)`: delete every character that is not a
word character, whitespace, or a hyphen. -/
def dropNonWord (s : List Char) : List Char :=
  s.filter (fun c => isWordChar c || isSpaceChar c || c = '-')

/-- A character matched by `[\s_]`. -/
def isSep (c : Char) : Bool := isSpaceChar c || c = '_'

/-- Replace each maximal run of characters satisfying `p` by the single
character `rep`; `inRun` records whether the previous character was part
of such a run. -/
def squashRuns (p : Char → Bool) (rep : Char) : Bool → List Char → List Char
  | _, [] => []
  | inRun, c :: cs =>
    if p c then
      if inRun then squashRuns p rep true cs
      else rep :: squashRuns p rep true cs
    else c :: squashRuns p rep false cs

/-- `re.sub(r"[\s_]+", "-", s)`: each maximal run of whitespace or
underscores becomes a single hyphen. -/
def squashSeps (s : List Char) : List Char := squashRuns isSep '-' false s

/-- `re.sub(r"-+", "-", s)`: each maximal run of hyphens becomes one. -/
def squashHyphens (s : List Char) : List Char := squashRuns (fun c => c = '-') '-' false s

/-- `DbBackend._slugify` (backends.py lines 231-238):
lower-case and strip, delete `[^\w\s-]`, turn `[\s_]+` runs into `-`,
collapse `-+` runs and strip outer hyphens, defaulting to `"project"`. -/
def _slugify (name : List Char) : List Char :=
  let s := pyStrip (name.map Char.toLower)
  let s := dropNonWord s
  let s := squashSeps s
  let s := stripHyphens (squashHyphens s)
  if s = [] then "project".data else s

/-- A row of the `users` table. -/
structure UserRow where
  id : String
  email : String
  name : String
  deriving DecidableEq, Repr

/-- A row of the `projects` table. -/
structure ProjectRow where
  id : String
  ownerId : String
  name : String
  slug : List Char
  deriving DecidableEq, Repr

/-- A row of the `memberships` table. -/
structure MemRow where
  userId : String
  projectId : String
  role : String
  deriving DecidableEq, Repr

/-- The `WHERE email = %s` condition of the user lookup. -/
def userEmailMatch (email : String) (u : UserRow) : Bool := u.email = email

/-- `DbBackend.find_or_create_user` (backends.py lines 240-255), with the
`uuid.uuid4()` draw passed in as `newId`:
`SELECT id FROM users WHERE email = %s`; on a hit return that id,
otherwise `INSERT INTO users (id, email, name)` and return `newId`. -/
def find_or_create_user (users : List UserRow) (username email newId : String) :
    String × List UserRow :=
  match users.find? (userEmailMatch email) with
  | some u => (u.id, users)
  | none => (newId, users ++ [{ id := newId, email := email, name := username }])

/-- State touched by `find_or_create_project`. -/
structure IdentityState where
  projects : List ProjectRow
  memberships : List MemRow
  deriving DecidableEq, Repr

/-- The `WHERE name = %s AND owner_id = %s` condition of the project
lookup. -/
def projKeyMatch (pname oid : String) (p : ProjectRow) : Bool :=
  p.name = pname ∧ p.ownerId = oid

/-- The `WHERE slug = %s` condition of the slug-collision probe. -/
def slugTaken (s : List Char) (p : ProjectRow) : Bool := p.slug = s

/-- The `(user_id, project_id)` conflict condition of the membership
insert's `ON CONFLICT DO NOTHING`. -/
def memConflict (oid nid : String) (m : MemRow) : Bool :=
  m.userId = oid ∧ m.projectId = nid

/-- `DbBackend.find_or_create_project` (backends.py lines 257-288), with
the `uuid.uuid4()` draw passed in as `newId`:
`SELECT id FROM projects WHERE name = %s AND owner_id = %s`; on a hit
return that id; otherwise slugify the name, append `-{project_id[:8]}`
if the slug is already taken, `INSERT` the project, and `INSERT` an
owner membership with `ON CONFLICT DO NOTHING`. -/
def find_or_create_project (st : IdentityState) (project_name owner_id newId : String) :
    String × IdentityState :=
  match st.projects.find? (projKeyMatch project_name owner_id) with
  | some p => (p.id, st)
  | none =>
    let slug0 := _slugify project_name.data
    let slug := if st.projects.any (slugTaken slug0)
      then slug0 ++ "-".data ++ newId.data.take 8
      else slug0
    let projects' := st.projects ++
      [{ id := newId, ownerId := owner_id, name := project_name, slug := slug }]
    let memberships' :=
      if st.memberships.any (memConflict owner_id newId)
      then st.memberships
      else st.memberships ++ [{ userId := owner_id, projectId := newId, role := "owner" }]
    (newId, { projects := projects', memberships := memberships' })

/-! ### Create and rotate (backends.py lines 290-339, app.py lines 647-720) -/

/-- Abstract length of one day, for `timedelta(days=...)`. -/
def daySecs : Int := 86400

/-- The dict returned by `DbBackend.create_key` (backends.py lines 329-339). -/
structure CreateResult where
  id : String
  key : List Char
  pfx : List Char
  label : Option String
  scopes : List String
  rateLimit : Nat
  expiresAt : Option Int
  createdAt : Int
  deriving DecidableEq, Repr

/-- Mutable backend state of the direct-store variant: the `api_keys`
table, the id the next `INSERT ... RETURNING id` will assign, and the
current time. -/
structure DbState where
  keys : List KeyRow
  nextId : Nat
  now : Int
  deriving DecidableEq, Repr

/-- `DbBackend.create_key` (backends.py lines 290-339), with the
`secrets.token_bytes(32)` draw passed in as `rnd`:
`expires_at = None; if expires_in_days and expires_in_days > 0:
expires_at = now + timedelta(days=expires_in_days)`; then the `INSERT`
of the generated material returning the new row's id. -/
def dbCreateKey (st : DbState) (user_id project_id : String) (label : Option String)
    (environment : String) (expires_in_days : Option Nat) (scopes : Option (List String))
    (rate_limit : Nat) (rnd : List Nat) : CreateResult × DbState :=
  let key_data := generate_api_key environment.data rnd
  let expires_at : Option Int :=
    match expires_in_days with
    | some d => if 0 < d then some (st.now + daySecs * d) else none
    | none => none
  let newId := toString st.nextId
  let row : KeyRow :=
    { id := newId
      keyPfx := String.mk key_data.pfx
      keyHash := key_data.hash
      label := label
      scopes := scopes.getD []
      rateLimit := rate_limit
      lastUsedAt := none
      expiresAt := expires_at
      createdAt := st.now
      revokedAt := none
      userId := user_id
      projectId := project_id }
  ({ id := newId
     key := key_data.plaintext
     pfx := key_data.pfx
     label := label
     scopes := scopes.getD []
     rateLimit := rate_limit
     expiresAt := expires_at
     createdAt := st.now },
   { st with keys := st.keys ++ [row], nextId := st.nextId + 1 })

/-- `get_key_info` (backends.py lines 352-357): scan
`list_keys(include_revoked=True)` for the id. -/
def get_key_info (db : List KeyRow) (key_id : String) (now : Int) : Option KeyView :=
  (list_keys db true now).find? (fun k => k.id = key_id)

/-- Boolean check that `p` is an initial segment of `s`
(Python `str.startswith`). -/
def beginsWith : List Char → List Char → Bool
  | [], _ => true
  | _ :: _, [] => false
  | p :: ps, s :: ss => p = s && beginsWith ps ss

/-- The environment inference of the rotation step (app.py line 684):
`env = "test" if key.get("prefix", "").startswith("mbmcp_test") else "live"`. -/
def inferEnv (cached : KeyView) : String :=
  if beginsWith "mbmcp_test".data cached.keyPfx.data then "test" else "live"

/-- Observable outcome of one rotation request. -/
inductive RotateOutcome where
  | notActive
  | ownerUnresolved
  | rotated (res : CreateResult)
  deriving DecidableEq, Repr

/-- One backend write issued during a rotation, with the value the call
returned where the code receives one. -/
inductive BOp where
  | revokeOp (keyId : String) (returned : Bool)
  | createOp (userId projectId : String) (label : Option String) (environment : String)
      (expiresInDays : Option Nat) (rateLimit : Nat)
  deriving DecidableEq, Repr

/-- `ApiKeyManagerApp.action_rotate` + `_do_rotate` over the direct-store
variant (app.py lines 647-720; identically api-keys-tui/app.py lines
874-919): abort unless the cached record's status is `"active"`; then
`await self.backend.revoke_key(key["id"])` with the result discarded;
infer the environment from the cached record's stored pfx; re-fetch the
owner via `get_key_info` and abort if it is gone; finally
`create_key(label=key.get("label"), environment=env,
rate_limit=key.get("rateLimit", 60), user_id=..., project_id=...)`.
The returned list records the backend writes issued, in order. -/
def action_rotate (st : DbState) (cached : KeyView) (rnd : List Nat) :
    RotateOutcome × DbState × List BOp :=
  if cached.status ≠ Status.active then (.notActive, st, [])
  else
    let rev := dbRevoke st.keys cached.id st.now
    let st1 : DbState := { st with keys := rev.1 }
    let env := inferEnv cached
    match get_key_info st1.keys cached.id st.now with
    | none => (.ownerUnresolved, st1, [.revokeOp cached.id rev.2])
    | some info =>
      let cr := dbCreateKey st1 info.userId info.projectId cached.label env none none
        cached.rateLimit rnd
      (.rotated cr.1, cr.2,
       [.revokeOp cached.id rev.2,
        .createOp info.userId info.projectId cached.label env none cached.rateLimit])

/-! ### Concrete fixtures used to instantiate the theorems -/

/-- A stored key row that is already revoked (`revoked_at = 20`). -/
def exRow : KeyRow :=
  { id := "1", keyPfx := "mbmcp_test_ABCDE", keyHash := [], label := some "CI",
    scopes := [], rateLimit := 120, lastUsedAt := none, expiresAt := some 50,
    createdAt := 10, revokedAt := some 20, userId := "u1", projectId := "p1" }

/-- A backend state holding only `exRow`. -/
def exSt : DbState := { keys := [exRow], nextId := 7, now := 100 }

/-- A stale cached record of `exRow`: displayed as active although the
stored row has been revoked since the table was listed. -/
def exCached : KeyView :=
  { id := "1", keyPfx := "mbmcp_test_ABCDE", label := some "CI", scopes := [],
    rateLimit := 120, lastUsedAt := none, expiresAt := some 50, createdAt := 10,
    revokedAt := none, status := .active, userId := "u1", projectId := "p1" }

/-- The up-to-date view of `exRow` at time 100. -/
def exInfo : KeyView :=
  { id := "1", keyPfx := "mbmcp_test_ABCDE", label := some "CI", scopes := [],
    rateLimit := 120, lastUsedAt := none, expiresAt := some 50, createdAt := 10,
    revokedAt := some 20, status := .revoked, userId := "u1", projectId := "p1" }

/-- A fresh, never-revoked row. -/
def exRow2 : KeyRow :=
  { id := "2", keyPfx := "mbmcp_live_XYZAB", keyHash := [], label := none,
    scopes := [], rateLimit := 60, lastUsedAt := none, expiresAt := some 40,
    createdAt := 30, revokedAt := none, userId := "u1", projectId := "p1" }

/-- The result of a rotation, when one happened. -/
def rotatedRes : RotateOutcome × DbState × List BOp → Option CreateResult
  | (.rotated r, _, _) => some r
  | _ => none

/-- Whether a backend-write trace contains a `create_key` call. -/
def hasCreateOp (ops : List BOp) : Bool :=
  ops.any fun o => match o with
    | .createOp .. => true
    | _ => false

/-! ### Helper lemmas -/

/-- Membership is preserved by `insertByCreated`. -/
theorem mem_insertByCreated {y r : KeyRow} {l : List KeyRow} :
    y ∈ insertByCreated r l ↔ y = r ∨ y ∈ l := by
  induction l with
  | nil => simp [insertByCreated]
  | cons x xs ih =>
    by_cases h : x.createdAt ≤ r.createdAt
    · simp [insertByCreated, h]
    · simp only [insertByCreated, if_neg h, List.mem_cons, ih]
      tauto

/-- Membership is preserved by `sortByCreatedDesc`. -/
theorem mem_sortByCreatedDesc {y : KeyRow} {l : List KeyRow} :
    y ∈ sortByCreatedDesc l ↔ y ∈ l := by
  induction l with
  | nil => simp [sortByCreatedDesc]
  | cons x xs ih => simp [sortByCreatedDesc, mem_insertByCreated, ih]

/-- The descending-by-`createdAt` order on rows. -/
def descRow (a b : KeyRow) : Prop := b.createdAt ≤ a.createdAt

/-- `insertByCreated` preserves descending sortedness. -/
theorem sorted_insertByCreated {r : KeyRow} {l : List KeyRow}
    (h : List.Sorted descRow l) : List.Sorted descRow (insertByCreated r l) := by
  induction l with
  | nil => simp [insertByCreated, descRow]
  | cons x xs ih =>
    rcases List.sorted_cons.mp h with ⟨hx, hxs⟩
    by_cases hle : x.createdAt ≤ r.createdAt
    · simp only [insertByCreated, if_pos hle]
      refine List.sorted_cons.mpr ⟨?_, h⟩
      intro y hy
      rcases List.mem_cons.mp hy with rfl | hy
      · exact hle
      · exact le_trans (hx y hy) hle
    · simp only [insertByCreated, if_neg hle]
      refine List.sorted_cons.mpr ⟨?_, ih hxs⟩
      intro y hy
      rcases mem_insertByCreated.mp hy with rfl | hy
      · exact le_of_lt (lt_of_not_le hle)
      · exact hx y hy

/-- `sortByCreatedDesc` sorts descending by `createdAt`. -/
theorem sorted_sortByCreatedDesc (l : List KeyRow) :
    List.Sorted descRow (sortByCreatedDesc l) := by
  induction l with
  | nil => simp [sortByCreatedDesc]
  | cons x xs ih => exact sorted_insertByCreated ih

/-- The digest serialization always yields 32 bytes. -/
theorem digestBytes_length (st : Hs) : (digestBytes st).length = 32 := by
  simp [digestBytes, wordBytes]

/-- The SHA-256 digest is always 256 bits (32 bytes) long. -/
theorem sha256_length (msg : List Nat) : (sha256 msg).length = 32 :=
  digestBytes_length _

/-- An in-range `getD` is a member of the list. -/
theorem getD_mem {l : List Char} {i : Nat} {d : Char} (h : i < l.length) :
    l.getD i d ∈ l := by
  rw [List.getD_eq_getElem l d h]
  exact List.getElem_mem h

/-- `beginsWith "mbmcp_test"` holds on the stored 16-character pfx of a
test-environment plaintext, whatever the random suffix is. -/
theorem beginsWith_testEnv (rand : List Char) :
    beginsWith "mbmcp_test".data (("mbmcp_".data ++ "test".data ++ "_".data ++ rand).take 16)
      = true := by
  show beginsWith ['m', 'b', 'm', 'c', 'p', '_', 't', 'e', 's', 't']
    ((['m', 'b', 'm', 'c', 'p', '_'] ++ ['t', 'e', 's', 't'] ++ ['_'] ++ rand).take 16) = true
  simp [beginsWith, List.take_succ_cons]

/-- `beginsWith "mbmcp_test"` fails on the stored pfx of a
live-environment plaintext, whatever the random suffix is. -/
theorem beginsWith_liveEnv (rand : List Char) :
    beginsWith "mbmcp_test".data (("mbmcp_".data ++ "live".data ++ "_".data ++ rand).take 16)
      = false := by
  show beginsWith ['m', 'b', 'm', 'c', 'p', '_', 't', 'e', 's', 't']
    ((['m', 'b', 'm', 'c', 'p', '_'] ++ ['l', 'i', 'v', 'e'] ++ ['_'] ++ rand).take 16) = false
  simp [beginsWith, List.take_succ_cons]

/-! ### Claims -/

/-- C3: for all (`revokedAt`, `expiresAt`, now) the derived status is
`revoked` whenever `revokedAt` is set regardless of `expiresAt`;
`expired` exactly when `revokedAt` is unset, `expiresAt` is set and
earlier than now; `active` otherwise; and every record returned by
`list_keys` carries exactly this pure function of its own
(`revokedAt`, `expiresAt`, now) — status is derived on read, never taken
from a stored column. -/
theorem claim_C3_status_derivation :
    (∀ (r : Int) (ea : Option Int) (now : Int), resolveStatus (some r) ea now = .revoked)
    ∧ (∀ (e now : Int), e < now → resolveStatus none (some e) now = .expired)
    ∧ (∀ (e now : Int), ¬ e < now → resolveStatus none (some e) now = .active)
    ∧ (∀ now : Int, resolveStatus none none now = .active)
    ∧ (∀ (db : List KeyRow) (b : Bool) (now : Int) (v : KeyView),
        v ∈ list_keys db b now → v.status = resolveStatus v.revokedAt v.expiresAt now) := by
  refine ⟨fun r ea now => rfl,
    fun e now h => by simp [resolveStatus, h],
    fun e now h => by simp [resolveStatus, h],
    fun now => rfl, ?_⟩
  intro db b now v hv
  simp only [list_keys, List.mem_map] at hv
  obtain ⟨r, _, rfl⟩ := hv
  rfl

/-- Witness for C3 at concrete inputs. -/
theorem claim_C3_witness :
    resolveStatus (some 20) (some 50) 0 = .revoked
    ∧ ((1 : Int) < 2 ∧ resolveStatus none (some 1) 2 = .expired)
    ∧ (¬ (5 : Int) < 2 ∧ resolveStatus none (some 5) 2 = .active)
    ∧ resolveStatus none none 0 = .active
    ∧ (toView 100 exRow ∈ list_keys [exRow] true 100
       ∧ (toView 100 exRow).status
          = resolveStatus (toView 100 exRow).revokedAt (toView 100 exRow).expiresAt 100) :=
  ⟨claim_C3_status_derivation.1 20 (some 50) 0,
   ⟨by decide, claim_C3_status_derivation.2.1 1 2 (by decide)⟩,
   ⟨by decide, claim_C3_status_derivation.2.2.1 5 2 (by decide)⟩,
   claim_C3_status_derivation.2.2.2.1 0,
   ⟨by decide, claim_C3_status_derivation.2.2.2.2 [exRow] true 100 _ (by decide)⟩⟩

/-- C5: requesting rotation of a key whose derived status is `revoked` or
`expired` aborts on the status precondition (the invalid-state outcome,
surfaced as the "Only active keys can be rotated" warning) and performs
zero backend writes: the state is untouched and neither `revoke_key` nor
`create_key` is invoked. -/
theorem claim_C5_rotate_precondition (st : DbState) (cached : KeyView) (rnd : List Nat)
    (h : cached.status = .revoked ∨ cached.status = .expired) :
    action_rotate st cached rnd = (.notActive, st, []) := by
  have hne : cached.status ≠ .active := by rcases h with h | h <;> simp [h]
  simp [action_rotate, hne]

/-- Witness for C5 at a concrete revoked key. -/
theorem claim_C5_witness :
    (exInfo.status = .revoked ∨ exInfo.status = .expired)
    ∧ action_rotate exSt exInfo [] = (.notActive, exSt, []) :=
  ⟨Or.inl rfl, claim_C5_rotate_precondition exSt exInfo [] (Or.inl rfl)⟩

/-- C2 (amended): the direct-store `revoke_key` behaves as claimed —
it reports `true` exactly when some live row with the id was revoked, a
second call is a no-op returning `false` that leaves every record (its
`revokedAt` included) unchanged — but the HTTP `revoke_key` never
returns `false`: it returns `true` on every successful `DELETE` and
raises on an HTTP error status. -/
theorem claim_C2_revoke_idempotence :
    (∀ (db : List KeyRow) (id : String) (now : Int),
      (dbRevoke db id now).2 = true ↔ ∃ r ∈ db, r.id = id ∧ r.revokedAt = none)
    ∧ (∀ (db : List KeyRow) (id : String) (now now2 : Int),
      dbRevoke (dbRevoke db id now).1 id now2 = ((dbRevoke db id now).1, false))
    ∧ (∀ s : Nat, httpRevoke s ≠ .ok false) := by
  refine ⟨?_, ?_, ?_⟩
  · intro db id now
    simp only [dbRevoke, decide_eq_true_eq]
    rw [Nat.pos_iff_ne_zero, Ne, List.length_eq_zero]
    simp only [ne_eq, List.filter_eq_nil_iff, decide_eq_true_eq]
    push_neg
    rfl
  · intro db id now now2
    simp only [dbRevoke, Prod.mk.injEq]
    constructor
    · rw [List.map_map]
      apply List.map_congr_left
      intro r _
      by_cases h : r.id = id ∧ r.revokedAt = none
      · simp [Function.comp, h]
      · simp [Function.comp, if_neg h]
    · simp only [decide_eq_false_iff_not]
      intro hpos
      rw [Nat.pos_iff_ne_zero, Ne, List.length_eq_zero] at hpos
      apply hpos
      rw [List.filter_eq_nil_iff]
      intro y hy
      simp only [decide_eq_true_eq]
      rcases List.mem_map.mp hy with ⟨r, _, rfl⟩
      by_cases h : r.id = id ∧ r.revokedAt = none
      · simp [h]
      · rw [if_neg h]
        intro hc
        exact h ⟨hc.1, hc.2⟩
  · intro s
    unfold httpRevoke
    split <;> simp

/-- Witness for C2 at concrete inputs. -/
theorem claim_C2_witness :
    (dbRevoke [exRow2] "2" 100).2 = true
    ∧ dbRevoke (dbRevoke [exRow2] "2" 100).1 "2" 101 = ((dbRevoke [exRow2] "2" 100).1, false)
    ∧ ¬ httpRevoke 200 = .ok false :=
  ⟨(claim_C2_revoke_idempotence.1 [exRow2] "2" 100).mpr ⟨exRow2, by decide, by decide, rfl⟩,
   claim_C2_revoke_idempotence.2.1 [exRow2] "2" 100 101,
   claim_C2_revoke_idempotence.2.2 200⟩

/-- Counterexample to C2 as stated: under the HTTP variant a `DELETE`
the server accepts (status 200 — e.g. the idempotent delete of an
already-revoked key) returns `true`, not `false`, and a missing key
(status 404) raises instead of returning `false`. -/
theorem claim_C2_counterexample :
    httpRevoke 200 = .ok true
    ∧ httpRevoke 404 = .error "HTTPStatusError"
    ∧ ¬ httpRevoke 200 = .ok false
    ∧ ¬ httpRevoke 404 = .ok false := by
  refine ⟨rfl, rfl, fun h => by simp [httpRevoke] at h, fun h => by simp [httpRevoke] at h⟩

/-- C10: the stored pfx of a freshly generated key begins with
`"mbmcp_test"` exactly when the key was generated for the `test`
environment, so the rotation step's environment inference recovers the
generation environment. -/
theorem claim_C10_env_roundtrip (env : String) (bytes : List Nat)
    (h : env = "live" ∨ env = "test") :
    (beginsWith "mbmcp_test".data (generate_api_key env.data bytes).pfx = true)
      ↔ env = "test" := by
  rcases h with rfl | rfl
  · simp only [generate_api_key]
    rw [beginsWith_liveEnv]
    simp
  · simp only [generate_api_key]
    rw [beginsWith_testEnv]
    simp

/-- Witness for C10 at concrete inputs. -/
theorem claim_C10_witness :
    (("live" : String) = "live" ∨ ("live" : String) = "test")
    ∧ ¬ (beginsWith "mbmcp_test".data (generate_api_key "live".data [3, 200]).pfx = true)
    ∧ (("test" : String) = "live" ∨ ("test" : String) = "test")
    ∧ (beginsWith "mbmcp_test".data (generate_api_key "test".data [3, 200]).pfx = true) :=
  ⟨Or.inl rfl,
   fun hb => by
     have := (claim_C10_env_roundtrip "live" [3, 200] (Or.inl rfl)).mp hb
     exact absurd this (by decide),
   Or.inr rfl,
   (claim_C10_env_roundtrip "test" [3, 200] (Or.inr rfl)).mpr rfl⟩

/-- C6: a generated key's plaintext is `"mbmcp_" + environment + "_"`
followed by exactly 32 characters from the 62-symbol alphabet, the pfx
is `plaintext[:16]`, and the hash is the 256-bit SHA-256 digest of the
UTF-8 encoding of the plaintext. -/
theorem claim_C6_key_generation (env : String) (bytes : List Nat)
    (_henv : env = "live" ∨ env = "test") (hlen : bytes.length = 32) :
    (∃ suffix : List Char,
      (generate_api_key env.data bytes).plaintext
        = "mbmcp_".data ++ env.data ++ "_".data ++ suffix
      ∧ suffix.length = 32
      ∧ ∀ c ∈ suffix, c ∈ BASE62)
    ∧ (generate_api_key env.data bytes).pfx
        = (generate_api_key env.data bytes).plaintext.take 16
    ∧ (generate_api_key env.data bytes).hash
        = sha256 (utf8Encode (generate_api_key env.data bytes).plaintext)
    ∧ (generate_api_key env.data bytes).hash.length = 32 := by
  refine ⟨⟨bytes.map (fun b => BASE62.getD (b % 62) '0'), rfl, ?_, ?_⟩,
    rfl, rfl, sha256_length _⟩
  · simp [hlen]
  · intro c hc
    rcases List.mem_map.mp hc with ⟨b, _, rfl⟩
    refine getD_mem ?_
    have h62 : BASE62.length = 62 := rfl
    rw [h62]
    exact Nat.mod_lt _ (by norm_num)

/-- Witness for C6 at a concrete 32-byte draw. -/
theorem claim_C6_witness :
    (("live" : String) = "live" ∨ ("live" : String) = "test")
    ∧ (List.replicate 32 7).length = 32
    ∧ ((∃ suffix : List Char,
        (generate_api_key "live".data (List.replicate 32 7)).plaintext
          = "mbmcp_".data ++ "live".data ++ "_".data ++ suffix
        ∧ suffix.length = 32
        ∧ ∀ c ∈ suffix, c ∈ BASE62)
      ∧ (generate_api_key "live".data (List.replicate 32 7)).pfx
          = (generate_api_key "live".data (List.replicate 32 7)).plaintext.take 16
      ∧ (generate_api_key "live".data (List.replicate 32 7)).hash
          = sha256 (utf8Encode (generate_api_key "live".data (List.replicate 32 7)).plaintext)
      ∧ (generate_api_key "live".data (List.replicate 32 7)).hash.length = 32) :=
  ⟨Or.inl rfl, by decide,
   claim_C6_key_generation "live" (List.replicate 32 7) (Or.inl rfl) (by decide)⟩

/-- C7: `list_keys` returns records sorted by creation time descending;
with `include_revoked = false` a record is returned exactly when its
stored row has `revokedAt` unset (so expired-but-not-revoked rows are
still returned); with `include_revoked = true` every row is returned —
the filter looks only at `revokedAt`, never at the derived status. -/
theorem claim_C7_list_ordering_filter (db : List KeyRow) (b : Bool) (now : Int) :
    List.Sorted (fun a b : KeyView => b.createdAt ≤ a.createdAt) (list_keys db b now)
    ∧ (∀ v : KeyView, v ∈ list_keys db false now
        ↔ ∃ r ∈ db, r.revokedAt = none ∧ v = toView now r)
    ∧ (∀ v : KeyView, v ∈ list_keys db true now ↔ ∃ r ∈ db, v = toView now r)
    ∧ (∀ r ∈ db, r.revokedAt = none → toView now r ∈ list_keys db false now) := by
  refine ⟨?_, ?_, ?_, ?_⟩
  · have hs := sorted_sortByCreatedDesc
      (if b then db else db.filter (fun r => r.revokedAt = none))
    simp only [list_keys]
    exact List.Pairwise.map (toView now) (fun a c h => h) hs
  · intro v
    simp only [list_keys, if_neg Bool.false_ne_true, List.mem_map, mem_sortByCreatedDesc,
      List.mem_filter, decide_eq_true_eq]
    constructor
    · rintro ⟨r, ⟨hr, hrev⟩, rfl⟩
      exact ⟨r, hr, hrev, rfl⟩
    · rintro ⟨r, hr, hrev, rfl⟩
      exact ⟨r, ⟨hr, hrev⟩, rfl⟩
  · intro v
    simp only [list_keys, if_pos rfl, List.mem_map, mem_sortByCreatedDesc]
    constructor
    · rintro ⟨r, hr, rfl⟩
      exact ⟨r, hr, rfl⟩
    · rintro ⟨r, hr, rfl⟩
      exact ⟨r, hr, rfl⟩
  · intro r hr hrev
    simp only [list_keys, if_neg Bool.false_ne_true, List.mem_map, mem_sortByCreatedDesc,
      List.mem_filter, decide_eq_true_eq]
    exact ⟨r, ⟨hr, hrev⟩, rfl⟩

/-- Witness for C7 at a concrete table: the expired-but-not-revoked
`exRow2` is returned by `list_keys(include_revoked=False)`, the revoked
`exRow` is not. -/
theorem claim_C7_witness :
    exRow2 ∈ [exRow, exRow2]
    ∧ exRow2.revokedAt = none
    ∧ toView 100 exRow2 ∈ list_keys [exRow, exRow2] false 100
    ∧ ¬ toView 100 exRow ∈ list_keys [exRow, exRow2] false 100 := by
  refine ⟨by decide, rfl,
    (claim_C7_list_ordering_filter [exRow, exRow2] false 100).2.2.2 exRow2 (by decide) rfl,
    ?_⟩
  intro hmem
  have h := ((claim_C7_list_ordering_filter [exRow, exRow2] false 100).2.1 (toView 100 exRow)).mp hmem
  rcases h with ⟨r, hr, hrev, heq⟩
  rcases List.mem_cons.mp hr with rfl | hr2
  · exact absurd hrev (by decide)
  · rcases List.mem_cons.mp hr2 with rfl | hr3
    · exact absurd heq (by decide)
    · exact List.not_mem_nil r hr3

/-- C8: `find_or_create_user` and `find_or_create_project` are
idempotent: a second call with identical inputs returns the same id and
leaves the store untouched, and when the looked-up row was initially
absent the two calls together insert exactly one row. -/
theorem claim_C8_find_or_create_idempotent :
    (∀ (users : List UserRow) (username email nid1 nid2 : String),
      (find_or_create_user (find_or_create_user users username email nid1).2
          username email nid2).1
        = (find_or_create_user users username email nid1).1
      ∧ (find_or_create_user (find_or_create_user users username email nid1).2
          username email nid2).2
        = (find_or_create_user users username email nid1).2
      ∧ (users.find? (userEmailMatch email) = none →
          (find_or_create_user users username email nid1).2.length = users.length + 1))
    ∧ (∀ (st : IdentityState) (pname oid nid1 nid2 : String),
      (find_or_create_project (find_or_create_project st pname oid nid1).2
          pname oid nid2).1
        = (find_or_create_project st pname oid nid1).1
      ∧ (find_or_create_project (find_or_create_project st pname oid nid1).2
          pname oid nid2).2
        = (find_or_create_project st pname oid nid1).2
      ∧ (st.projects.find? (projKeyMatch pname oid) = none →
          (find_or_create_project st pname oid nid1).2.projects.length
            = st.projects.length + 1)) := by
  constructor
  · intro users username email nid1 nid2
    cases h : users.find? (userEmailMatch email) with
    | some u => simp [find_or_create_user, h]
    | none =>
      simp [find_or_create_user, h, List.find?_append, userEmailMatch]
  · intro st pname oid nid1 nid2
    cases h : st.projects.find? (projKeyMatch pname oid) with
    | some p => simp [find_or_create_project, h]
    | none =>
      simp [find_or_create_project, h, List.find?_append, projKeyMatch]

/-- Witness for C8 at concrete inputs. -/
theorem claim_C8_witness :
    ((find_or_create_user (find_or_create_user [] "alice" "a@b.c" "u-1").2
        "alice" "a@b.c" "u-2").1
      = (find_or_create_user [] "alice" "a@b.c" "u-1").1
    ∧ ([] : List UserRow).find? (fun u => u.email = "a@b.c") = none
    ∧ (find_or_create_user [] "alice" "a@b.c" "u-1").2.length = 1)
    ∧ ((find_or_create_project ⟨[], []⟩ "My Project!!" "o1" "p-1").2.projects.length = 1
    ∧ (find_or_create_project (find_or_create_project ⟨[], []⟩ "My Project!!" "o1" "p-1").2
        "My Project!!" "o1" "p-2").1
      = (find_or_create_project ⟨[], []⟩ "My Project!!" "o1" "p-1").1) :=
  ⟨⟨(claim_C8_find_or_create_idempotent.1 [] "alice" "a@b.c" "u-1" "u-2").1,
    rfl,
    (claim_C8_find_or_create_idempotent.1 [] "alice" "a@b.c" "u-1" "u-2").2.2 rfl⟩,
   ⟨(claim_C8_find_or_create_idempotent.2 ⟨[], []⟩ "My Project!!" "o1" "p-1" "p-2").2.2 rfl,
    (claim_C8_find_or_create_idempotent.2 ⟨[], []⟩ "My Project!!" "o1" "p-1" "p-2").1⟩⟩

/-- An existing project named `"My Project!!"` (slug `"my-project"`)
owned by `o1`. -/
def exProj : ProjectRow :=
  { id := "aaaabbbbcccc", ownerId := "o1", name := "My Project!!",
    slug := "my-project".data }

/-- The membership row created alongside `exProj`. -/
def exMem : MemRow := { userId := "o1", projectId := "aaaabbbbcccc", role := "owner" }

/-- The identity store holding `exProj` and `exMem`. -/
def exIdSt : IdentityState := { projects := [exProj], memberships := [exMem] }

/-- The project row `find_or_create_project` inserts for name `pname`,
owner `oid`, fresh id `nid` and slug `s`. -/
def mkProj (pname oid nid : String) (s : List Char) : ProjectRow :=
  { id := nid, ownerId := oid, name := pname, slug := s }

/-- C9: the slug derivation lower-cases, strips non-word characters,
collapses whitespace/underscore runs to hyphens, collapses and trims
hyphens, and falls back to the fixed placeholder `"project"`; on a slug
collision the inserted project's slug is the base slug plus a suffix
taken from the new project's own id (`project_id[:8]`). -/
theorem claim_C9_slugify :
    _slugify "My Project!!".data = "my-project".data
    ∧ _slugify "!!!".data = "project".data
    ∧ (∀ name : List Char, _slugify name ≠ [])
    ∧ (∀ (st : IdentityState) (pname oid nid : String),
        st.projects.find? (projKeyMatch pname oid) = none →
        st.projects.any (slugTaken (_slugify pname.data)) = true →
        (find_or_create_project st pname oid nid).2.projects
          = st.projects
            ++ [mkProj pname oid nid (_slugify pname.data ++ "-".data ++ nid.data.take 8)])
    ∧ (∀ (st : IdentityState) (pname oid nid : String),
        st.projects.find? (projKeyMatch pname oid) = none →
        st.projects.any (slugTaken (_slugify pname.data)) = false →
        (find_or_create_project st pname oid nid).2.projects
          = st.projects ++ [mkProj pname oid nid (_slugify pname.data)]) := by
  refine ⟨by decide, by decide, ?_, ?_, ?_⟩
  · intro name
    simp only [_slugify]
    split
    · decide
    · assumption
  · intro st pname oid nid hfind hany
    simp [find_or_create_project, hfind, hany, mkProj]
  · intro st pname oid nid hfind hany
    simp [find_or_create_project, hfind, hany, mkProj]

/-- Witness for C9: a second project also named `"My Project!!"` under a
different owner collides on `"my-project"` and gets the disambiguated
slug `"my-project-" + its own id's first 8 characters`. -/
theorem claim_C9_witness :
    exIdSt.projects.find? (projKeyMatch "My Project!!" "o2") = none
    ∧ exIdSt.projects.any (slugTaken (_slugify "My Project!!".data)) = true
    ∧ (find_or_create_project exIdSt "My Project!!" "o2" "deadbeef1234").2.projects
        = exIdSt.projects
          ++ [mkProj "My Project!!" "o2" "deadbeef1234"
                (_slugify "My Project!!".data ++ "-".data
                  ++ ("deadbeef1234" : String).data.take 8)]
    ∧ _slugify "My Project!!".data ++ "-".data ++ ("deadbeef1234" : String).data.take 8
        = "my-project-deadbeef".data :=
  ⟨by decide, by decide,
   claim_C9_slugify.2.2.2.1 exIdSt "My Project!!" "o2" "deadbeef1234" (by decide) (by decide),
   by decide⟩

/-- C4: whenever a rotation completes, the replacement is created with
`label` and `rateLimit` copied verbatim from the cached source record,
environment `test` exactly when the source pfx begins with the test
marker (`live` otherwise), and no expiry: the result's `expiresAt` is
`None` regardless of the source's `expiresAt`, because
`expires_in_days` is not passed to `create_key`. -/
theorem claim_C4_rotation_carry_over (st : DbState) (cached : KeyView) (rnd : List Nat)
    (res : CreateResult)
    (h : rotatedRes (action_rotate st cached rnd) = some res) :
    res.label = cached.label
    ∧ res.rateLimit = cached.rateLimit
    ∧ res.expiresAt = none
    ∧ (∃ u p, (action_rotate st cached rnd).2.2
        = [BOp.revokeOp cached.id (dbRevoke st.keys cached.id st.now).2,
           BOp.createOp u p cached.label (inferEnv cached) none cached.rateLimit]) := by
  by_cases hact : cached.status ≠ Status.active
  · simp [action_rotate, hact, rotatedRes] at h
  · simp only [action_rotate, if_neg hact] at h ⊢
    cases hinfo : get_key_info (dbRevoke st.keys cached.id st.now).1 cached.id st.now with
    | none =>
      rw [hinfo] at h
      simp [rotatedRes] at h
    | some info =>
      rw [hinfo] at h
      simp only [rotatedRes, Option.some.injEq] at h
      subst h
      exact ⟨rfl, rfl, rfl, info.userId, info.projectId, rfl⟩

/-- Witness for C4 at a concrete rotation. -/
theorem claim_C4_witness :
    (rotatedRes (action_rotate exSt exCached [])).map CreateResult.label
      = some exCached.label
    ∧ (rotatedRes (action_rotate exSt exCached [])).map CreateResult.rateLimit
      = some exCached.rateLimit
    ∧ (rotatedRes (action_rotate exSt exCached [])).map CreateResult.expiresAt
      = some none
    ∧ (action_rotate exSt exCached []).2.2
      = [BOp.revokeOp "1" false, BOp.createOp "u1" "p1" (some "CI") "test" none 120] := by
  cases h : rotatedRes (action_rotate exSt exCached []) with
  | none =>
    have hs : (rotatedRes (action_rotate exSt exCached [])).isSome = true := by decide
    rw [h] at hs
    simp at hs
  | some res =>
    obtain ⟨h1, h2, h3, -⟩ := claim_C4_rotation_carry_over exSt exCached [] res h
    exact ⟨by simp [h1], by simp [h2], by simp [h3], by decide⟩

/-- C1 (amended): the rotation never checks `revoke_key`'s boolean
result.  Even when the revoke step returns `false` (the key was missing
or already revoked at the backend), as long as the cached record showed
`active` and the owner can still be resolved, the rotation proceeds and
the create step IS invoked — there is no invalid-state abort between
revoke and create. -/
theorem claim_C1_revoke_result_ignored (st : DbState) (cached : KeyView) (rnd : List Nat)
    (info : KeyView)
    (hact : cached.status = Status.active)
    (hrev : (dbRevoke st.keys cached.id st.now).2 = false)
    (hinfo : get_key_info (dbRevoke st.keys cached.id st.now).1 cached.id st.now = some info) :
    (action_rotate st cached rnd).2.2
      = [BOp.revokeOp cached.id false,
         BOp.createOp info.userId info.projectId cached.label (inferEnv cached) none
           cached.rateLimit]
    ∧ hasCreateOp (action_rotate st cached rnd).2.2 = true := by
  have hact' : ¬ cached.status ≠ Status.active := by simp [hact]
  simp only [action_rotate, if_neg hact']
  rw [hinfo, hrev]
  exact ⟨rfl, by simp [hasCreateOp]⟩

/-- Witness for C1's amended statement at a concrete stale cache. -/
theorem claim_C1_witness :
    exCached.status = Status.active
    ∧ (dbRevoke exSt.keys exCached.id exSt.now).2 = false
    ∧ get_key_info (dbRevoke exSt.keys exCached.id exSt.now).1 exCached.id exSt.now
        = some exInfo
    ∧ ((action_rotate exSt exCached []).2.2
        = [BOp.revokeOp exCached.id false,
           BOp.createOp exInfo.userId exInfo.projectId exCached.label (inferEnv exCached)
             none exCached.rateLimit]
      ∧ hasCreateOp (action_rotate exSt exCached []).2.2 = true) :=
  ⟨rfl, by decide, by decide,
   claim_C1_revoke_result_ignored exSt exCached [] exInfo rfl (by decide) (by decide)⟩

/-- Counterexample to C1 as stated: a concrete rotation in which the
revoke step returns `false` yet the rotation does not abort — it
completes and the create step is invoked. -/
theorem claim_C1_counterexample :
    (dbRevoke exSt.keys exCached.id exSt.now).2 = false
    ∧ hasCreateOp (action_rotate exSt exCached []).2.2 = true
    ∧ (rotatedRes (action_rotate exSt exCached [])).isSome = true := by
  refine ⟨by decide, by decide, by decide⟩

end MBMCP
